import Mathlib

/-!
Verification development for the batch payment coordinator
(`go/stellar/batch.go`).  The coordinator, its preparation helpers, the
submit loop, the confirmation loop and the statistics pass are embedded as
pure Lean functions.  External collaborators (credential lookup, recipient
resolution, signing, note encryption, the relay builder, the ledger
gateway and the clock) are supplied through an `Env` record of oracles,
mirroring the interfaces the Go code consumes.

Concurrency model.  Each preparation goroutine touches shared state only
through the sequence provider, and it performs at most one allocation.
Hence every interleaving of the concurrent preparation phase is observably
equal to running the preparations sequentially in the order of their
sequence-provider accesses.  `prepareAllOrder` performs that sequential
run over a schedule `order`; the channel delivers the results in an
arbitrary arrival order `recv`.  Theorems quantify over both via
permutation hypotheses (`ValidRecv`).
-/

set_option linter.unusedVariables false

namespace BatchClient

/-- Payment status. Modelled from the spec: the protocol enum is not part of
the sources; the spec states `status ∈ { PENDING, COMPLETED, ERROR }`. -/
inductive PaymentStatus where
  | PENDING
  | COMPLETED
  | ERROR
  deriving DecidableEq, Repr

/-- Modelled from the spec: `statusDescription` is the human label derived
from the status enum value (`stellar1.PaymentStatusRevMap`, not in the
sources). Any injective labelling works; the claims only relate the stored
description to the stored status. -/
def PaymentStatusRevMap : PaymentStatus → String
  | .PENDING => "pending"
  | .COMPLETED => "completed"
  | .ERROR => "error"

/-- One input payment (`stellar1.BatchPaymentArg`). -/
structure BatchPaymentArg where
  recipient : String
  amount : String
  message : String := ""
  deriving DecidableEq, Repr

/-- Modelled from the spec: `libkb.NewNormalizedUsername` is not in the
sources; recipient identifiers are opaque strings, so normalization is the
identity in this model. -/
def NewNormalizedUsername (s : String) : String := s

/-- Result of recipient resolution (`stellarcommon.Recipient`): an optional
on-ledger account id, an optional keybase user (its user-version, opaque
here), and the raw assertion input. -/
structure Recipient where
  accountID : Option String
  user : Option Nat
  input : String
  deriving DecidableEq, Repr

/-- `stellar1.PaymentDirectPost`, the fields batch.go touches. -/
structure PaymentDirectPost where
  fromDeviceID : String
  toUv : Option Nat := none
  quickReturn : Bool := true
  signedTransaction : String := ""
  noteB64 : String := ""
  deriving DecidableEq, Repr

/-- `stellar1.PaymentRelayPost`, the fields batch.go touches. -/
structure PaymentRelayPost where
  fromDeviceID : String
  toAssertion : String
  relayAccount : String
  teamID : String
  boxB64 : String
  signedTransaction : String
  quickReturn : Bool := true
  toUv : Option Nat := none
  deriving DecidableEq, Repr

/-- `MiniPrepared` (declared next to batch.go): exactly the fields the
batch code reads and writes.  `seqno` and `txID` keep their Go zero values
on every error path. -/
structure MiniPrepared where
  username : String
  error : Option String := none
  direct : Option PaymentDirectPost := none
  relay : Option PaymentRelayPost := none
  seqno : Nat := 0
  txID : String := ""
  deriving DecidableEq, Repr

/-- `stellar1.BatchPaymentResult`.  The Go zero value of the status field is
never observed: every path through the submit loop assigns a status before
the entry is stored. -/
structure BatchPaymentResult where
  username : String
  startTime : Int := 0
  submittedTime : Int := 0
  endTime : Int := 0
  txID : String := ""
  status : PaymentStatus := .PENDING
  statusDescription : String := ""
  error : Option String := none
  deriving DecidableEq, Repr

/-- `stellar1.BatchLocalArg`. -/
structure BatchLocalArg where
  batchID : String := ""
  timeoutSecs : Int := 0
  payments : List BatchPaymentArg := []
  deriving DecidableEq, Repr

/-- `stellar1.BatchResultLocal`. -/
structure BatchResultLocal where
  startTime : Int := 0
  preparedTime : Int := 0
  allSubmittedTime : Int := 0
  endTime : Int := 0
  payments : List BatchPaymentResult := []
  countSuccess : Int := 0
  countPending : Int := 0
  countError : Int := 0
  overallDurationMs : Int := 0
  prepareDurationMs : Int := 0
  submitDurationMs : Int := 0
  waitDurationMs : Int := 0
  avgDurationMs : Int := 0
  avgSuccessDurationMs : Int := 0
  avgErrorDurationMs : Int := 0
  deriving DecidableEq, Repr

/-- Outcome of `SubmitPayment` / `SubmitRelayPayment` (`stellar1.PaymentResult`). -/
structure SubmitRes where
  stellarID : String
  pending : Bool
  deriving DecidableEq, Repr

/-- Outcome of `relays.Create`: the escrow account, the encrypted box and
the signed funding transaction. -/
structure RelayRes where
  relayAccountID : String
  encryptedB64 : String
  fundTxSigned : String
  fundTxHash : String
  deriving DecidableEq, Repr

/-- The external collaborators batch.go consumes, as deterministic oracles.
`time` is the wall clock, indexed by the number of `time.Now()` calls made
so far on the coordinator path; `sp0` is the first sequence number the
provider hands out (one past the sender's current on-ledger seqno). -/
structure Env where
  sp0 : Nat
  time : Nat → Int
  deviceID : String
  lookupSender : Except String (String × String)
  resolve : String → Except String Recipient
  isFunded : String → Except String Bool
  signPay : String → String → String → Nat → Except String (String × String)
  signCreate : String → String → String → Nat → Except String (String × String)
  noteEncrypt : String → String → Option Nat → Except String String
  relayGetKey : Recipient → Except String (String × String)
  relayCreate : String → String → String → String → Nat → Except String RelayRes
  getListener : Except String Unit
  submitPayment : PaymentDirectPost → Except String SubmitRes
  submitRelayPayment : PaymentRelayPost → Except String SubmitRes

def minAmountRelayXLM : String := "2.01"

def minAmountCreateAccountXLM : String := "1"

def digitVal (c : Char) : Nat := c.toNat - 48

/-- Parse a non-negative decimal string into `(digits, scale)` so that the
value is `digits / 10 ^ scale`.  Rejects anything that is not digits with
at most one dot. -/
def parseDecAux : List Char → Bool → Nat → Nat → Option (Nat × Nat)
  | [], _, acc, k => some (acc, k)
  | c :: cs, seenDot, acc, k =>
    if c = '.' then
      if seenDot then none else parseDecAux cs true acc k
    else if c.isDigit then
      parseDecAux cs seenDot (acc * 10 + digitVal c) (if seenDot then k + 1 else k)
    else none

def parseDecimal (s : String) : Option (Nat × Nat) :=
  if s.isEmpty then none else parseDecAux s.toList false 0 0

/-- Modelled from the spec: the amount helper (`isAmountLessThanMin`, not in
the sources) compares decimal strings semantically, never lexicographically;
on an unparsable amount it reports `false` (not less). -/
def isAmountLessThanMin (amount minAmt : String) : Bool :=
  match parseDecimal amount, parseDecimal minAmt with
  | some (va, ka), some (vb, kb) => va * 10 ^ kb < vb * 10 ^ ka
  | _, _ => false

/-- `prepareBatchPaymentDirect`.  The sequence provider is the explicit
counter `sp`; the signing helpers consume exactly one number from it.  The
Go function returns a `*MiniPrepared`; the `Option` mirrors the pointer. -/
def prepareBatchPaymentDirect (env : Env) (senderSeed : String)
    (payment : BatchPaymentArg) (recipient : Recipient) (sp : Nat) :
    Option MiniPrepared × Nat :=
  let result : MiniPrepared := { username := NewNormalizedUsername payment.recipient }
  -- the caller only takes this path when recipient.AccountID is non-nil
  let acctID := recipient.accountID.getD ""
  match env.isFunded acctID with
  | .error e => (some { result with error := some e }, sp)
  | .ok funded =>
    if !funded && isAmountLessThanMin payment.amount minAmountCreateAccountXLM then
      (some { result with error := some ("you must send at least " ++
        minAmountCreateAccountXLM ++ " XLM to fund the account for " ++
        payment.recipient) }, sp)
    else
      -- result.Direct is assigned before signing, so it stays set on the
      -- error paths below (the Go line 205 dereference of recipient.User is
      -- modelled by the option field directly)
      let dir0 : PaymentDirectPost :=
        { fromDeviceID := env.deviceID, toUv := recipient.user, quickReturn := true }
      let n := sp
      let sp1 := sp + 1
      let signRes :=
        if funded then env.signPay senderSeed acctID payment.amount n
        else env.signCreate senderSeed acctID payment.amount n
      match signRes with
      | .error e => (some { result with direct := some dir0, error := some e }, sp1)
      | .ok signedAndHash =>
        let signed := signedAndHash.1
        let txHash := signedAndHash.2
        if payment.message.length > 0 then
          match env.noteEncrypt payment.message txHash recipient.user with
          | .error e =>
            (some { result with
                      direct := some dir0,
                      error := some ("error encrypting note: " ++ e) }, sp1)
          | .ok nb =>
            (some { result with
              direct := some { dir0 with noteB64 := nb, signedTransaction := signed },
              seqno := n, txID := txHash }, sp1)
        else
          (some { result with
            direct := some { dir0 with signedTransaction := signed },
            seqno := n, txID := txHash }, sp1)

/-- `prepareBatchPaymentRelay`.  `relays.Create` consumes one sequence
number for the funding transaction. -/
def prepareBatchPaymentRelay (env : Env) (senderSeed : String)
    (payment : BatchPaymentArg) (recipient : Recipient) (sp : Nat) :
    Option MiniPrepared × Nat :=
  let result : MiniPrepared := { username := NewNormalizedUsername payment.recipient }
  if isAmountLessThanMin payment.amount minAmountRelayXLM then
    (some { result with error := some ("you must send at least " ++
      minAmountRelayXLM ++ " XLM to fund the account for " ++
      payment.recipient) }, sp)
  else
    match env.relayGetKey recipient with
    | .error e => (some { result with error := some e }, sp)
    | .ok keyAndTeam =>
      let n := sp
      let sp1 := sp + 1
      match env.relayCreate senderSeed payment.amount payment.message keyAndTeam.1 n with
      | .error e => (some { result with error := some e }, sp1)
      | .ok relay =>
        let post : PaymentRelayPost :=
          { fromDeviceID := env.deviceID, toAssertion := recipient.input,
            relayAccount := relay.relayAccountID, teamID := keyAndTeam.2,
            boxB64 := relay.encryptedB64, signedTransaction := relay.fundTxSigned,
            quickReturn := true, toUv := recipient.user }
        (some { result with
                  relay := some post, seqno := n,
                  txID := relay.fundTxHash }, sp1)

/-- `prepareBatchPayment`: resolve the recipient, then direct or relay.  On
a resolution failure the underlying error is dropped and the constant
message stored; no sequence number is consumed. -/
def prepareBatchPayment (env : Env) (senderSeed : String)
    (payment : BatchPaymentArg) (sp : Nat) : Option MiniPrepared × Nat :=
  match env.resolve payment.recipient with
  | .error _e =>
    (some { username := NewNormalizedUsername payment.recipient,
            error := some "error looking up recipient" }, sp)
  | .ok recipient =>
    match recipient.accountID with
    | none => prepareBatchPaymentRelay env senderSeed payment recipient sp
    | some _ => prepareBatchPaymentDirect env senderSeed payment recipient sp

/-- Serialization of the concurrent preparation phase along a schedule:
the payments in the order of their sequence-provider accesses, threading
the provider counter. -/
def prepareAllOrder (env : Env) (senderSeed : String) :
    List BatchPaymentArg → Nat → List (Option MiniPrepared) × Nat
  | [], sp => ([], sp)
  | p :: rest, sp =>
    let first := prepareBatchPayment env senderSeed p sp
    let restRes := prepareAllOrder env senderSeed rest first.2
    (first.1 :: restRes.1, restRes.2)

/-- The sort key of `sort.Slice(preparedList, ...)`: the Go code
dereferences the entry; a nil entry would panic there, and the entries are
never nil (claim C10), so the key of `none` is irrelevant. -/
def seqnoOf : Option MiniPrepared → Nat
  | none => 0
  | some m => m.seqno

def insertBySeqno (m : Option MiniPrepared) :
    List (Option MiniPrepared) → List (Option MiniPrepared)
  | [] => [m]
  | a :: l => if seqnoOf m ≤ seqnoOf a then m :: a :: l else a :: insertBySeqno m l

/-- The in-place `sort.Slice` by ascending `Seqno`, as an executable sort. -/
def sortBySeqno : List (Option MiniPrepared) → List (Option MiniPrepared)
  | [] => []
  | a :: l => insertBySeqno a (sortBySeqno l)

/-- `PrepareBatchPayments`: collect the concurrently prepared entries from
the channel (`recv` is the arrival order) and sort them by seqno.  The
only return is `(preparedList, nil)`. -/
def PrepareBatchPayments (recv : List (Option MiniPrepared)) :
    List (Option MiniPrepared) × Option String :=
  (sortBySeqno recv, none)

/-- `recv` is a possible channel content for the given inputs: the entries
produced by running the preparations along some schedule, in some arrival
order. -/
def ValidRecv (env : Env) (senderSeed : String) (payments : List BatchPaymentArg)
    (recv : List (Option MiniPrepared)) : Prop :=
  ∃ order, order.Perm payments ∧
    recv.Perm (prepareAllOrder env senderSeed order env.sp0).1

/-- `makeResultError`: stamp the end time, store the message, set ERROR. -/
def makeResultError (env : Env) (res : BatchPaymentResult) (msg : String)
    (t : Nat) : BatchPaymentResult × Nat :=
  ({ res with endTime := env.time t, error := some msg, status := .ERROR }, t + 1)

/-- `submitBatchTx`.  `walletState.AddPendingTx` is best-effort bookkeeping
with no observable effect on the result and is not modelled. -/
def submitBatchTx (env : Env) (senderAccountID : String) (prepared : MiniPrepared)
    (bpResult : BatchPaymentResult) (t : Nat) : BatchPaymentResult × Nat :=
  let submitRes : Except String SubmitRes :=
    match prepared.direct with
    | some d => env.submitPayment d
    | none =>
      match prepared.relay with
      | some r => env.submitRelayPayment r
      | none => .error "no prepared direct or relay payment"
  let bp1 := { bpResult with submittedTime := env.time t }
  let t1 := t + 1
  match submitRes with
  | .error e => makeResultError env bp1 e t1
  | .ok sr =>
    let bp2 := { bp1 with txID := sr.stellarID }
    if sr.pending then
      ({ bp2 with status := .PENDING }, t1)
    else
      ({ bp2 with status := .COMPLETED, endTime := env.time t1 }, t1 + 1)

/-- Go map insert: the new binding shadows (replaces) any previous binding
of the same key. -/
def mapInsert (w : List (String × Nat)) (k : String) (v : Nat) :
    List (String × Nat) :=
  (k, v) :: w.filter (fun kv => !(kv.1 == k))

def mapLookup (w : List (String × Nat)) (k : String) : Option Nat :=
  (w.find? (fun kv => kv.1 == k)).map Prod.snd

def mapDelete (w : List (String × Nat)) (k : String) : List (String × Nat) :=
  w.filter (fun kv => !(kv.1 == k))

/-- The submission loop of `Batch` (lines 66-88): serial, in sorted order.
`acc` holds the already-built results in reverse, `i` is the index of the
current entry, `t` the clock counter.  Returns `none` exactly when a nil
prepared entry is met (the "batch prepare failed" branch). -/
def submitLoopAux (env : Env) (senderAccountID : String) :
    List (Option MiniPrepared) → List BatchPaymentResult →
    List (String × Nat) → Nat → Nat →
    Option (List BatchPaymentResult × List (String × Nat) × Nat)
  | [], acc, w, _i, t => some (acc.reverse, w, t)
  | none :: _, _acc, _w, _i, _t => none
  | some p :: rest, acc, w, i, t =>
    let bp0 : BatchPaymentResult :=
      { username := p.username, startTime := env.time t }
    let t1 := t + 1
    match p.error with
    | some msg =>
      let bpT := makeResultError env bp0 msg t1
      let bp2 := { bpT.1 with statusDescription := PaymentStatusRevMap bpT.1.status }
      submitLoopAux env senderAccountID rest (bp2 :: acc) w (i + 1) bpT.2
    | none =>
      let bpT := submitBatchTx env senderAccountID p bp0 t1
      let w1 := if bpT.1.status = .PENDING then mapInsert w bpT.1.txID i else w
      let bp2 := { bpT.1 with statusDescription := PaymentStatusRevMap bpT.1.status }
      submitLoopAux env senderAccountID rest (bp2 :: acc) w1 (i + 1) bpT.2

/-- An observable step of the confirmation loop: a 5-second tick or a
status update from the listener channel, each carrying the wall-clock time
at which it is handled. -/
inductive ConfirmEvent where
  | tick (now : Int)
  | update (txID : String) (status : PaymentStatus) (now : Int)
  deriving DecidableEq, Repr

structure ConfirmState where
  results : List BatchPaymentResult
  waiting : List (String × Nat)
  waitingCount : Nat
  timedOut : Bool := false
  deriving DecidableEq, Repr

/-- Replace the element at index `i` (the Go `resultList[index].… = …`
assignments); indices are always in range when this is reached. -/
def listModify : List BatchPaymentResult → Nat →
    (BatchPaymentResult → BatchPaymentResult) → List BatchPaymentResult
  | [], _, _ => []
  | a :: l, 0, f => f a :: l
  | a :: l, n + 1, f => a :: listModify l n f

/-- One iteration of the wait loop (lines 98-131).  Once the loop guard
fails (no one left to wait for, or timed out) further events are not
consumed.  The chat notification spawned on COMPLETED is a side effect with
no bearing on the result and is not modelled. -/
def confirmStep (timeoutSecs startTime : Int) (s : ConfirmState)
    (e : ConfirmEvent) : ConfirmState :=
  if s.waitingCount = 0 ∨ s.timedOut then s
  else
    match e with
    | .tick now =>
      if now - startTime > timeoutSecs * 1000 then { s with timedOut := true } else s
    | .update txID status now =>
      match mapLookup s.waiting txID with
      | none => s
      | some index =>
        let results := listModify s.results index (fun r =>
          { r with status := status,
                   statusDescription := PaymentStatusRevMap status })
        if status ≠ .PENDING then
          { results := listModify results index (fun r => { r with endTime := now }),
            waiting := mapDelete s.waiting txID,
            waitingCount := s.waitingCount - 1,
            timedOut := s.timedOut }
        else
          { s with results := results }

def confirmRun (timeoutSecs startTime : Int) (s : ConfirmState)
    (events : List ConfirmEvent) : ConfirmState :=
  events.foldl (confirmStep timeoutSecs startTime) s

/-- Accumulator of `calculateStats` (the loop-local variables and the
counters the loop increments on `res`). -/
structure StatsAcc where
  durationTotal : Int
  durationSuccess : Int
  durationError : Int
  countDone : Int
  countSuccess : Int
  countPending : Int
  countError : Int
  deriving DecidableEq, Repr

def statsFold (a : StatsAcc) (p : BatchPaymentResult) : StatsAcc :=
  let duration := p.endTime - p.startTime
  let a1 := { a with durationTotal := a.durationTotal + duration }
  match p.status with
  | .COMPLETED =>
    { a1 with countDone := a1.countDone + 1,
              countSuccess := a1.countSuccess + 1,
              durationSuccess := a1.durationSuccess + duration }
  | .PENDING => { a1 with countPending := a1.countPending + 1 }
  | .ERROR =>
    -- the Go switch treats every non-completed, non-pending status as error
    { a1 with countDone := a1.countDone + 1,
              countError := a1.countError + 1,
              durationError := a1.durationError + duration }

/-- `calculateStats` (lines 290-330).  Division is Go's truncating int64
division, `Int.tdiv`. -/
def calculateStats (res : BatchResultLocal) : BatchResultLocal :=
  let res1 := { res with
    overallDurationMs := res.endTime - res.startTime,
    prepareDurationMs := res.preparedTime - res.startTime,
    submitDurationMs := res.allSubmittedTime - res.preparedTime,
    waitDurationMs := res.endTime - res.allSubmittedTime }
  let acc := res1.payments.foldl statsFold
    { durationTotal := 0, durationSuccess := 0, durationError := 0,
      countDone := 0, countSuccess := res1.countSuccess,
      countPending := res1.countPending, countError := res1.countError }
  let res2 := { res1 with
                  countSuccess := acc.countSuccess,
                  countPending := acc.countPending, countError := acc.countError }
  let res3 := if acc.countDone > 0 then
    { res2 with avgDurationMs := Int.tdiv acc.durationTotal acc.countDone } else res2
  let res4 := if res3.countSuccess > 0 then
    { res3 with avgSuccessDurationMs := Int.tdiv acc.durationSuccess res3.countSuccess }
    else res3
  if res3.countError > 0 then
    { res4 with avgErrorDurationMs := Int.tdiv acc.durationError res3.countError }
  else res4

/-- The deferred `if res.EndTime == 0 { res.EndTime = now }` executed on
every return from `Batch`. -/
def deferEndTime (env : Env) (t : Nat) (res : BatchResultLocal) : BatchResultLocal :=
  if res.endTime = 0 then { res with endTime := env.time t } else res

/-- `Batch` (lines 26-144).  `recv` is the channel arrival order of the
concurrently prepared entries (see `ValidRecv`); `events` is the sequence
of observable steps of the wait loop. -/
def Batch (env : Env) (arg : BatchLocalArg) (recv : List (Option MiniPrepared))
    (events : List ConfirmEvent) : BatchResultLocal × Option String :=
  let startTime := env.time 0
  let res0 : BatchResultLocal := { startTime := startTime }
  match env.lookupSender with
  | .error e => (deferEndTime env 1 res0, some e)
  | .ok sender =>
    let senderAccountID := sender.1
    let prepared := (PrepareBatchPayments recv).1
    let res1 := { res0 with preparedTime := env.time 1 }
    match env.getListener with
    | .error e => (deferEndTime env 2 res1, some e)
    | .ok _ =>
      match submitLoopAux env senderAccountID prepared [] [] 0 2 with
      | none => (deferEndTime env 2 res1, some "batch prepare failed")
      | some outcome =>
        let resultList := outcome.1
        let waiting := outcome.2.1
        let t := outcome.2.2
        let res2 := { res1 with allSubmittedTime := env.time t }
        let t1 := t + 1
        let s0 : ConfirmState :=
          { results := resultList, waiting := waiting,
            waitingCount := waiting.length, timedOut := false }
        let s1 := confirmRun arg.timeoutSecs startTime s0 events
        let res3 := { res2 with payments := s1.results, endTime := env.time t1 }
        (deferEndTime env (t1 + 1) (calculateStats res3), none)

/-! ### Helper notions used by the theorems -/

/-- The username stored in a prepared entry (empty for a nil entry). -/
def usernameOf (m : Option MiniPrepared) : String :=
  (Option.map MiniPrepared.username m).getD ""

/-- Whether a prepared entry is a PrepareErr (nil entries are not). -/
def entryIsErr (m : Option MiniPrepared) : Bool :=
  match m with
  | some x => x.error.isSome
  | none => false

/-! ### Sorting lemmas -/

theorem insertBySeqno_perm (m : Option MiniPrepared)
    (l : List (Option MiniPrepared)) : (insertBySeqno m l).Perm (m :: l) := by
  induction l with
  | nil => exact List.Perm.refl _
  | cons a l ih =>
    unfold insertBySeqno
    split
    · exact List.Perm.refl _
    · exact (ih.cons a).trans (List.Perm.swap m a l)

theorem sortBySeqno_perm (l : List (Option MiniPrepared)) :
    (sortBySeqno l).Perm l := by
  induction l with
  | nil => exact List.Perm.refl _
  | cons a l ih => exact (insertBySeqno_perm a _).trans (ih.cons a)

theorem insertBySeqno_pairwise (m : Option MiniPrepared)
    (l : List (Option MiniPrepared))
    (h : l.Pairwise (fun a b => seqnoOf a ≤ seqnoOf b)) :
    (insertBySeqno m l).Pairwise (fun a b => seqnoOf a ≤ seqnoOf b) := by
  induction l with
  | nil => simp [insertBySeqno]
  | cons a l ih =>
    rcases List.pairwise_cons.1 h with ⟨ha, hl⟩
    unfold insertBySeqno
    split
    · rename_i hm
      refine List.pairwise_cons.2 ⟨?_, h⟩
      intro b hb
      rcases List.mem_cons.1 hb with hb | hb
      · exact hb ▸ hm
      · exact le_trans hm (ha b hb)
    · rename_i hm
      refine List.pairwise_cons.2 ⟨?_, ih hl⟩
      intro b hb
      have hb2 := ((insertBySeqno_perm m l).mem_iff).1 hb
      rcases List.mem_cons.1 hb2 with hb2 | hb2
      · exact hb2 ▸ le_of_not_le hm
      · exact ha b hb2

theorem sortBySeqno_pairwise (l : List (Option MiniPrepared)) :
    (sortBySeqno l).Pairwise (fun a b => seqnoOf a ≤ seqnoOf b) := by
  induction l with
  | nil => simp [sortBySeqno]
  | cons a l ih => exact insertBySeqno_pairwise a _ ih

/-! ### Shape of the prepared entries -/

theorem prepareBatchPaymentDirect_shape (env : Env) (seed : String)
    (p : BatchPaymentArg) (r : Recipient) (sp : Nat) :
    ∃ m, (prepareBatchPaymentDirect env seed p r sp).1 = some m ∧
      m.username = NewNormalizedUsername p.recipient ∧
      (m.error.isSome → m.seqno = 0) ∧
      (m.error = none → m.seqno = sp ∧
        (prepareBatchPaymentDirect env seed p r sp).2 = sp + 1) := by
  simp only [prepareBatchPaymentDirect]
  repeat' split
  all_goals simp

theorem prepareBatchPaymentRelay_shape (env : Env) (seed : String)
    (p : BatchPaymentArg) (r : Recipient) (sp : Nat) :
    ∃ m, (prepareBatchPaymentRelay env seed p r sp).1 = some m ∧
      m.username = NewNormalizedUsername p.recipient ∧
      (m.error.isSome → m.seqno = 0) ∧
      (m.error = none → m.seqno = sp ∧
        (prepareBatchPaymentRelay env seed p r sp).2 = sp + 1) := by
  simp only [prepareBatchPaymentRelay]
  repeat' split
  all_goals simp

theorem prepareBatchPayment_shape (env : Env) (seed : String)
    (p : BatchPaymentArg) (sp : Nat) :
    ∃ m, (prepareBatchPayment env seed p sp).1 = some m ∧
      m.username = NewNormalizedUsername p.recipient ∧
      (m.error.isSome → m.seqno = 0) ∧
      (m.error = none → m.seqno = sp ∧
        (prepareBatchPayment env seed p sp).2 = sp + 1) := by
  simp only [prepareBatchPayment]
  split
  · simp
  · split
    · exact prepareBatchPaymentRelay_shape env seed p _ sp
    · exact prepareBatchPaymentDirect_shape env seed p _ sp

/-! ### Facts about the serialized preparation run -/

theorem prepareAllOrder_length (env : Env) (seed : String)
    (l : List BatchPaymentArg) (sp : Nat) :
    ((prepareAllOrder env seed l sp).1).length = l.length := by
  induction l generalizing sp with
  | nil => rfl
  | cons p rest ih => simpa [prepareAllOrder] using ih _

theorem prepareAllOrder_isSome (env : Env) (seed : String)
    (l : List BatchPaymentArg) (sp : Nat) :
    ∀ m ∈ (prepareAllOrder env seed l sp).1, m.isSome := by
  induction l generalizing sp with
  | nil => intro m hm; simp [prepareAllOrder] at hm
  | cons p rest ih =>
    intro m hm
    simp only [prepareAllOrder, List.mem_cons] at hm
    rcases hm with hm | hm
    · rcases prepareBatchPayment_shape env seed p sp with ⟨x, hx, -, -, -⟩
      rw [hm, hx]; rfl
    · exact ih _ m hm

theorem prepareAllOrder_username (env : Env) (seed : String)
    (l : List BatchPaymentArg) (sp : Nat) :
    ((prepareAllOrder env seed l sp).1).map usernameOf
      = l.map (fun p => NewNormalizedUsername p.recipient) := by
  induction l generalizing sp with
  | nil => rfl
  | cons p rest ih =>
    rcases prepareBatchPayment_shape env seed p sp with ⟨x, hx, hu, -, -⟩
    simp [prepareAllOrder, usernameOf, hx, hu, ih]

theorem prepareAllOrder_err_seqno (env : Env) (seed : String)
    (l : List BatchPaymentArg) (sp : Nat) :
    ∀ m ∈ (prepareAllOrder env seed l sp).1, entryIsErr m → seqnoOf m = 0 := by
  induction l generalizing sp with
  | nil => intro m hm; simp [prepareAllOrder] at hm
  | cons p rest ih =>
    intro m hm he
    simp only [prepareAllOrder, List.mem_cons] at hm
    rcases hm with hm | hm
    · rcases prepareBatchPayment_shape env seed p sp with ⟨x, hx, -, hz, -⟩
      subst hm
      rw [hx] at he ⊢
      exact hz he
    · exact ih _ m hm he

/-! ### Submit loop and confirmation loop infrastructure -/

/-- Every stored result has the description derived from its status. -/
def DescOk (l : List BatchPaymentResult) : Prop :=
  ∀ r ∈ l, r.statusDescription = PaymentStatusRevMap r.status

/-- The WaitingSet invariant: every waiting entry points at a PENDING
result, and no two entries share an index. -/
def WaitInvP (results : List BatchPaymentResult) (w : List (String × Nat)) : Prop :=
  (∀ kv ∈ w, (results[kv.2]?).map BatchPaymentResult.status
      = some PaymentStatus.PENDING) ∧
  (w.map Prod.snd).Nodup

theorem listModify_length (l : List BatchPaymentResult) (i : Nat) (f) :
    (listModify l i f).length = l.length := by
  induction l generalizing i with
  | nil => rfl
  | cons a l ih =>
    cases i with
    | zero => rfl
    | succ n => simpa [listModify] using ih n

theorem listModify_getElem_ne (l : List BatchPaymentResult) (i j : Nat) (f)
    (h : i ≠ j) : (listModify l i f)[j]? = l[j]? := by
  induction l generalizing i j with
  | nil => rfl
  | cons a l ih =>
    cases i with
    | zero =>
      cases j with
      | zero => exact absurd rfl h
      | succ m => simp [listModify]
    | succ n =>
      cases j with
      | zero => simp [listModify]
      | succ m => simpa [listModify] using ih n m (by omega)

theorem listModify_getElem_self (l : List BatchPaymentResult) (i : Nat) (f) :
    (listModify l i f)[i]? = (l[i]?).map f := by
  induction l generalizing i with
  | nil => rfl
  | cons a l ih =>
    cases i with
    | zero => simp [listModify]
    | succ n => simpa [listModify] using ih n

theorem listModify_mem (l : List BatchPaymentResult) (i : Nat) (f)
    (r : BatchPaymentResult) (h : r ∈ listModify l i f) :
    r ∈ l ∨ ∃ a, a ∈ l ∧ r = f a := by
  induction l generalizing i with
  | nil => simp [listModify] at h
  | cons a l ih =>
    cases i with
    | zero =>
      rcases List.mem_cons.1 h with h | h
      · exact Or.inr ⟨a, List.mem_cons_self a l, h⟩
      · exact Or.inl (List.mem_cons_of_mem _ h)
    | succ n =>
      rcases List.mem_cons.1 h with h | h
      · exact Or.inl (h ▸ List.mem_cons_self a l)
      · rcases ih n h with h | ⟨b, hb, hr⟩
        · exact Or.inl (List.mem_cons_of_mem _ h)
        · exact Or.inr ⟨b, List.mem_cons_of_mem _ hb, hr⟩

theorem listModify_map_username (l : List BatchPaymentResult) (i : Nat) (f)
    (hf : ∀ r, (f r).username = r.username) :
    (listModify l i f).map BatchPaymentResult.username
      = l.map BatchPaymentResult.username := by
  induction l generalizing i with
  | nil => rfl
  | cons a l ih =>
    cases i with
    | zero => simp [listModify, hf]
    | succ n => simp [listModify, ih n]

theorem mapLookup_mem (w : List (String × Nat)) (k : String) (v : Nat)
    (h : mapLookup w k = some v) : (k, v) ∈ w := by
  unfold mapLookup at h
  cases hf : w.find? (fun kv => kv.1 == k) with
  | none => rw [hf] at h; simp at h
  | some kv =>
    rw [hf] at h
    obtain ⟨k1, v1⟩ := kv
    have hk : k1 = k := by simpa using List.find?_some hf
    have hv : v1 = v := by simpa using h
    have hm := List.mem_of_find?_eq_some hf
    rw [hk, hv] at hm
    exact hm

theorem mapDelete_mem (w : List (String × Nat)) (k : String)
    (kv : String × Nat) (h : kv ∈ mapDelete w k) : kv ∈ w ∧ kv.1 ≠ k := by
  unfold mapDelete at h
  have h2 := List.mem_filter.1 h
  refine ⟨h2.1, ?_⟩
  simpa using h2.2

theorem mapDelete_nodup (w : List (String × Nat)) (k : String)
    (h : (w.map Prod.snd).Nodup) : ((mapDelete w k).map Prod.snd).Nodup :=
  h.sublist ((List.filter_sublist w).map Prod.snd)

theorem mapInsert_mem (w : List (String × Nat)) (k : String) (v : Nat)
    (kv : String × Nat) (h : kv ∈ mapInsert w k v) :
    kv = (k, v) ∨ kv ∈ w := by
  rcases List.mem_cons.1 h with h | h
  · exact Or.inl h
  · exact Or.inr (List.mem_filter.1 h).1

theorem mapInsert_nodup (w : List (String × Nat)) (k : String) (v : Nat)
    (h : (w.map Prod.snd).Nodup) (hv : ∀ kv ∈ w, kv.2 ≠ v) :
    ((mapInsert w k v).map Prod.snd).Nodup := by
  unfold mapInsert
  refine List.nodup_cons.2 ⟨?_, h.sublist ((List.filter_sublist w).map Prod.snd)⟩
  intro hmem
  rcases List.mem_map.1 hmem with ⟨kv, hkv, hkv2⟩
  exact hv kv (List.mem_filter.1 hkv).1 hkv2

theorem makeResultError_username (env : Env) (res : BatchPaymentResult)
    (msg : String) (t : Nat) :
    ((makeResultError env res msg t).1).username = res.username := rfl

theorem submitBatchTx_username (env : Env) (a : String) (p : MiniPrepared)
    (bp : BatchPaymentResult) (t : Nat) :
    ((submitBatchTx env a p bp t).1).username = bp.username := by
  simp only [submitBatchTx]
  repeat' split
  all_goals simp [makeResultError]

theorem submitLoopAux_sound (env : Env) (acct : String)
    (l : List (Option MiniPrepared)) :
    ∀ (acc : List BatchPaymentResult) (w : List (String × Nat)) (t : Nat)
      results wOut tOut,
      submitLoopAux env acct l acc w acc.length t = some (results, wOut, tOut) →
      (∀ kv ∈ w, kv.2 < acc.length ∧
        ((acc.reverse)[kv.2]?).map BatchPaymentResult.status
          = some PaymentStatus.PENDING) →
      (w.map Prod.snd).Nodup →
      ∃ tail, results = acc.reverse ++ tail ∧
        tail.map BatchPaymentResult.username = l.map usernameOf ∧
        DescOk tail ∧
        WaitInvP results wOut := by
  induction l with
  | nil =>
    intro acc w t results wOut tOut h hw hnd
    simp only [submitLoopAux, Option.some.injEq, Prod.mk.injEq] at h
    obtain ⟨h1, h2, h3⟩ := h
    subst h1; subst h2
    refine ⟨[], by simp, rfl, by intro r hr; simp at hr, ?_, hnd⟩
    intro kv hkv
    exact (hw kv hkv).2
  | cons hd rest ih =>
    intro acc w t results wOut tOut h hw hnd
    cases hd with
    | none => simp [submitLoopAux] at h
    | some p =>
      simp only [submitLoopAux] at h
      cases hpe : p.error with
      | some msg =>
        rw [hpe] at h
        simp only at h
        rcases ih _ _ _ _ _ _ h (fun kv hkv => ⟨Nat.lt_succ_of_lt (hw kv hkv).1, by
            rw [List.reverse_cons, List.getElem?_append_left (by
              rw [List.length_reverse]; exact (hw kv hkv).1)]
            exact (hw kv hkv).2⟩) hnd
          with ⟨tail, ht, hu, hdo, hwi⟩
        rw [List.reverse_cons, List.append_assoc] at ht
        refine ⟨_ :: tail, ht, ?_, ?_, hwi⟩
        · simp only [List.map_cons, hu, usernameOf]
          rfl
        · intro r hr
          rcases List.mem_cons.1 hr with hr | hr
          · subst hr; rfl
          · exact hdo r hr
      | none =>
        rw [hpe] at h
        simp only at h
        split at h
        · -- the submit returned PENDING: an entry is inserted into waiting
          rename_i hp
          rcases ih _ _ _ _ _ _ h (fun kv hkv => by
              rcases mapInsert_mem _ _ _ _ hkv with hkv1 | hkv2
              · subst hkv1
                refine ⟨Nat.lt_succ_self _, ?_⟩
                rw [List.reverse_cons]
                have hlen : acc.length = acc.reverse.length := (List.length_reverse acc).symm
                rw [hlen, List.getElem?_concat_length]
                simpa using hp
              · refine ⟨Nat.lt_succ_of_lt (hw kv hkv2).1, by
                  rw [List.reverse_cons, List.getElem?_append_left (by
                    rw [List.length_reverse]; exact (hw kv hkv2).1)]
                  exact (hw kv hkv2).2⟩)
            (mapInsert_nodup _ _ _ hnd (fun kv hkv =>
              Nat.ne_of_lt (hw kv hkv).1))
            with ⟨tail, ht, hu, hdo, hwi⟩
          rw [List.reverse_cons, List.append_assoc] at ht
          refine ⟨_ :: tail, ht, ?_, ?_, hwi⟩
          · simp only [List.map_cons, hu, usernameOf]
            simp [submitBatchTx_username]
          · intro r hr
            rcases List.mem_cons.1 hr with hr | hr
            · subst hr; rfl
            · exact hdo r hr
        · -- the submit returned a terminal status: waiting unchanged
          rcases ih _ _ _ _ _ _ h (fun kv hkv => ⟨Nat.lt_succ_of_lt (hw kv hkv).1, by
              rw [List.reverse_cons, List.getElem?_append_left (by
                rw [List.length_reverse]; exact (hw kv hkv).1)]
              exact (hw kv hkv).2⟩) hnd
            with ⟨tail, ht, hu, hdo, hwi⟩
          rw [List.reverse_cons, List.append_assoc] at ht
          refine ⟨_ :: tail, ht, ?_, ?_, hwi⟩
          · simp only [List.map_cons, hu, usernameOf]
            simp [submitBatchTx_username]
          · intro r hr
            rcases List.mem_cons.1 hr with hr | hr
            · subst hr; rfl
            · exact hdo r hr

theorem submitLoopAux_isSome (env : Env) (acct : String)
    (l : List (Option MiniPrepared)) (hl : ∀ m ∈ l, m.isSome) :
    ∀ acc w i t, (submitLoopAux env acct l acc w i t).isSome := by
  induction l with
  | nil => intro acc w i t; simp [submitLoopAux]
  | cons hd rest ih =>
    intro acc w i t
    cases hd with
    | none => exact absurd (hl none (List.mem_cons_self _ _)) (by simp)
    | some p =>
      simp only [submitLoopAux]
      cases hpe : p.error with
      | some msg => exact ih (fun m hm => hl m (List.mem_cons_of_mem _ hm)) _ _ _ _
      | none => exact ih (fun m hm => hl m (List.mem_cons_of_mem _ hm)) _ _ _ _

/-! ### Confirmation loop lemmas -/

/-- The only legal evolutions of one payment's status slot: unchanged, or
PENDING to a terminal status. -/
def StatusMono (a b : Option PaymentStatus) : Prop :=
  a = b ∨ (a = some PaymentStatus.PENDING ∧
    (b = some PaymentStatus.COMPLETED ∨ b = some PaymentStatus.ERROR))

theorem statusMono_trans (a b c : Option PaymentStatus)
    (h1 : StatusMono a b) (h2 : StatusMono b c) : StatusMono a c := by
  rcases h1 with rfl | ⟨ha, hb⟩
  · exact h2
  · rcases h2 with rfl | ⟨hb2, hc⟩
    · exact Or.inr ⟨ha, hb⟩
    · rcases hb with hb | hb <;> rw [hb] at hb2 <;> simp at hb2

theorem listModify_map_username_statusSet (l : List BatchPaymentResult)
    (i : Nat) (st : PaymentStatus) :
    (listModify l i (fun r =>
        { r with status := st, statusDescription := PaymentStatusRevMap st })).map
      BatchPaymentResult.username = l.map BatchPaymentResult.username :=
  listModify_map_username l i _ (fun r => rfl)

theorem listModify_map_username_endSet (l : List BatchPaymentResult)
    (i : Nat) (now : Int) :
    (listModify l i (fun r => { r with endTime := now })).map
      BatchPaymentResult.username = l.map BatchPaymentResult.username :=
  listModify_map_username l i _ (fun r => rfl)

theorem confirmStep_spec (tmo st : Int) (s : ConfirmState) (e : ConfirmEvent)
    (hinv : WaitInvP s.results s.waiting) :
    WaitInvP (confirmStep tmo st s e).results (confirmStep tmo st s e).waiting ∧
    (∀ i : Nat, StatusMono ((s.results[i]?).map BatchPaymentResult.status)
      (((confirmStep tmo st s e).results[i]?).map BatchPaymentResult.status)) ∧
    (confirmStep tmo st s e).results.length = s.results.length ∧
    ((confirmStep tmo st s e).results.map BatchPaymentResult.username
      = s.results.map BatchPaymentResult.username) ∧
    (DescOk s.results → DescOk (confirmStep tmo st s e).results) := by
  by_cases hguard : s.waitingCount = 0 ∨ s.timedOut
  · have hstep : confirmStep tmo st s e = s := by
      unfold confirmStep
      rw [if_pos hguard]
    rw [hstep]
    exact ⟨hinv, fun i => Or.inl rfl, rfl, rfl, fun hd => hd⟩
  · cases e with
    | tick now =>
      by_cases ht : now - st > tmo * 1000
      · have hres : (confirmStep tmo st s (ConfirmEvent.tick now)).results
            = s.results := by simp [confirmStep, hguard, ht]
        have hwait : (confirmStep tmo st s (ConfirmEvent.tick now)).waiting
            = s.waiting := by simp [confirmStep, hguard, ht]
        rw [hres, hwait]
        exact ⟨hinv, fun i => Or.inl rfl, rfl, rfl, fun hd => hd⟩
      · have hstep : confirmStep tmo st s (ConfirmEvent.tick now) = s := by
          simp [confirmStep, hguard, ht]
        rw [hstep]
        exact ⟨hinv, fun i => Or.inl rfl, rfl, rfl, fun hd => hd⟩
    | update txID status now =>
      cases hl : mapLookup s.waiting txID with
      | none =>
        have hstep : confirmStep tmo st s (ConfirmEvent.update txID status now) = s := by
          simp [confirmStep, hguard, hl]
        rw [hstep]
        exact ⟨hinv, fun i => Or.inl rfl, rfl, rfl, fun hd => hd⟩
      | some index =>
        have hmem : (txID, index) ∈ s.waiting := mapLookup_mem _ _ _ hl
        have hpend : (s.results[index]?).map BatchPaymentResult.status
            = some PaymentStatus.PENDING := hinv.1 (txID, index) hmem
        by_cases hst : status = PaymentStatus.PENDING
        · -- a PENDING update: waiting unchanged, the entry stays PENDING
          subst hst
          have hres : (confirmStep tmo st s
                (ConfirmEvent.update txID PaymentStatus.PENDING now)).results
              = listModify s.results index (fun r =>
                  { r with status := PaymentStatus.PENDING,
                           statusDescription :=
                             PaymentStatusRevMap PaymentStatus.PENDING }) := by
            simp [confirmStep, hguard, hl]
          have hwait : (confirmStep tmo st s
                (ConfirmEvent.update txID PaymentStatus.PENDING now)).waiting
              = s.waiting := by
            simp [confirmStep, hguard, hl]
          rw [hres, hwait]
          refine ⟨⟨?_, hinv.2⟩, ?_, by simp [listModify_length],
            listModify_map_username_statusSet _ _ _, ?_⟩
          · intro kv hkv
            by_cases hi : kv.2 = index
            · rw [hi]
              simp only [listModify_getElem_self]
              cases hsr : s.results[index]? with
              | none => rw [hsr] at hpend; simp at hpend
              | some r => simp
            · simp only [listModify_getElem_ne _ _ _ _ (fun hx => hi hx.symm)]
              exact hinv.1 kv hkv
          · intro i
            by_cases hi : i = index
            · subst hi
              simp only [listModify_getElem_self]
              cases hsr : s.results[i]? with
              | none => exact Or.inl rfl
              | some r =>
                left
                rw [hsr] at hpend
                simpa using hpend
            · simp only [listModify_getElem_ne _ _ _ _ (fun hx => hi hx.symm)]
              exact Or.inl rfl
          · intro hd r hr
            rcases listModify_mem _ _ _ r hr with hr2 | ⟨a, ha, hra⟩
            · exact hd r hr2
            · subst hra; rfl
        · -- a terminal update: remove from waiting, stamp endTime
          have hres : (confirmStep tmo st s
                (ConfirmEvent.update txID status now)).results
              = listModify (listModify s.results index (fun r =>
                    { r with status := status,
                             statusDescription := PaymentStatusRevMap status })) index
                  (fun r => { r with endTime := now }) := by
            simp [confirmStep, hguard, hl, hst]
          have hwait : (confirmStep tmo st s
                (ConfirmEvent.update txID status now)).waiting
              = mapDelete s.waiting txID := by
            simp [confirmStep, hguard, hl, hst]
          rw [hres, hwait]
          refine ⟨⟨?_, mapDelete_nodup _ _ hinv.2⟩, ?_,
            by simp [listModify_length], ?_, ?_⟩
          · intro kv hkv
            rcases mapDelete_mem _ _ _ hkv with ⟨hkvw, hkvne⟩
            have hne : kv.2 ≠ index := by
              intro hcontra
              have heq := List.inj_on_of_nodup_map hinv.2 hkvw hmem
                (by simpa using hcontra)
              exact hkvne (by rw [heq])
            simp only [listModify_getElem_ne _ _ _ _ (fun hx => hne hx.symm)]
            exact hinv.1 kv hkvw
          · intro i
            by_cases hi : i = index
            · subst hi
              simp only [listModify_getElem_self]
              cases hsr : s.results[i]? with
              | none => rw [hsr] at hpend; simp at hpend
              | some r =>
                rw [hsr] at hpend
                refine Or.inr ⟨by simpa using hpend, ?_⟩
                cases status with
                | PENDING => exact absurd rfl hst
                | COMPLETED => exact Or.inl (by simp)
                | ERROR => exact Or.inr (by simp)
            · simp only [listModify_getElem_ne _ _ _ _ (fun hx => hi hx.symm)]
              exact Or.inl rfl
          · rw [listModify_map_username_endSet,
              listModify_map_username_statusSet]
          · intro hd r hr
            rcases listModify_mem _ _ _ r hr with hr2 | ⟨a, ha, hra⟩
            · rcases listModify_mem _ _ _ r hr2 with hr3 | ⟨b, hb, hrb⟩
              · exact hd r hr3
              · subst hrb; rfl
            · rcases listModify_mem _ _ _ a ha with ha2 | ⟨b, hb, hab⟩
              · subst hra; exact hd a ha2
              · subst hra; subst hab; rfl

theorem confirmRun_spec (tmo st : Int) (events : List ConfirmEvent) :
    ∀ (s : ConfirmState), WaitInvP s.results s.waiting →
    WaitInvP (confirmRun tmo st s events).results
      (confirmRun tmo st s events).waiting ∧
    (∀ i : Nat, StatusMono ((s.results[i]?).map BatchPaymentResult.status)
      (((confirmRun tmo st s events).results[i]?).map BatchPaymentResult.status)) ∧
    (confirmRun tmo st s events).results.length = s.results.length ∧
    ((confirmRun tmo st s events).results.map BatchPaymentResult.username
      = s.results.map BatchPaymentResult.username) ∧
    (DescOk s.results → DescOk (confirmRun tmo st s events).results) := by
  induction events with
  | nil => exact fun s h => ⟨h, fun i => Or.inl rfl, rfl, rfl, fun hd => hd⟩
  | cons e rest ih =>
    intro s h
    have h1 := confirmStep_spec tmo st s e h
    have h2 := ih (confirmStep tmo st s e) h1.1
    have hrw : confirmRun tmo st s (e :: rest)
        = confirmRun tmo st (confirmStep tmo st s e) rest := rfl
    rw [hrw]
    exact ⟨h2.1,
      fun i => statusMono_trans _ _ _ (h1.2.1 i) (h2.2.1 i),
      h2.2.2.1.trans h1.2.2.1,
      h2.2.2.2.1.trans h1.2.2.2.1,
      fun hd => h2.2.2.2.2 (h1.2.2.2.2 hd)⟩

/-! ### Statistics lemmas -/

theorem statsFold_sum (l : List BatchPaymentResult) :
    ∀ a : StatsAcc,
      (l.foldl statsFold a).countSuccess + (l.foldl statsFold a).countPending
        + (l.foldl statsFold a).countError
      = a.countSuccess + a.countPending + a.countError + (l.length : Int) := by
  induction l with
  | nil => intro a; simp
  | cons p rest ih =>
    intro a
    rw [List.foldl_cons, ih]
    cases hps : p.status <;> simp [statsFold, hps] <;> omega

theorem calculateStats_payments (res : BatchResultLocal) :
    (calculateStats res).payments = res.payments := by
  simp only [calculateStats]
  repeat' split
  all_goals rfl

theorem calculateStats_counts (res : BatchResultLocal) :
    (calculateStats res).countSuccess + (calculateStats res).countPending
      + (calculateStats res).countError
    = res.countSuccess + res.countPending + res.countError
      + (res.payments.length : Int) := by
  have h := statsFold_sum res.payments
    { durationTotal := 0, durationSuccess := 0, durationError := 0,
      countDone := 0, countSuccess := res.countSuccess,
      countPending := res.countPending, countError := res.countError }
  simp only [calculateStats]
  repeat' split
  all_goals simpa using h

theorem deferEndTime_payments (env : Env) (t : Nat) (res : BatchResultLocal) :
    (deferEndTime env t res).payments = res.payments := by
  unfold deferEndTime
  split <;> rfl

theorem deferEndTime_counts (env : Env) (t : Nat) (res : BatchResultLocal) :
    (deferEndTime env t res).countSuccess = res.countSuccess ∧
    (deferEndTime env t res).countPending = res.countPending ∧
    (deferEndTime env t res).countError = res.countError := by
  unfold deferEndTime
  split <;> exact ⟨rfl, rfl, rfl⟩

/-! ### The coordinator on a successful run -/

theorem Batch_ok_spec (env : Env) (arg : BatchLocalArg)
    (recv : List (Option MiniPrepared)) (events : List ConfirmEvent)
    (sender : String × String)
    (hs : env.lookupSender = Except.ok sender)
    (hg : env.getListener = Except.ok ())
    (hns : ∀ m ∈ recv, m.isSome) :
    (Batch env arg recv events).2 = none ∧
    ((Batch env arg recv events).1.payments.map BatchPaymentResult.username
      = ((PrepareBatchPayments recv).1).map usernameOf) ∧
    DescOk (Batch env arg recv events).1.payments ∧
    ((Batch env arg recv events).1.countSuccess
      + (Batch env arg recv events).1.countPending
      + (Batch env arg recv events).1.countError
      = ((Batch env arg recv events).1.payments.length : Int)) ∧
    (Batch env arg recv events).1.payments.length = recv.length := by
  have hns2 : ∀ m ∈ (PrepareBatchPayments recv).1, m.isSome := by
    intro m hm
    exact hns m ((sortBySeqno_perm recv).mem_iff.1 hm)
  have hsl := submitLoopAux_isSome env sender.1 (PrepareBatchPayments recv).1 hns2
    [] [] 0 2
  cases hsub : submitLoopAux env sender.1 (PrepareBatchPayments recv).1 [] [] 0 2 with
  | none => rw [hsub] at hsl; simp at hsl
  | some outcome =>
    obtain ⟨resultList, waiting, tOut⟩ := outcome
    rcases submitLoopAux_sound env sender.1 (PrepareBatchPayments recv).1
        [] [] 2 resultList waiting tOut hsub
        (by intro kv hkv; simp at hkv) (by simp)
      with ⟨tail, htail, huser, hdesc, hwi⟩
    simp only [List.reverse_nil, List.nil_append] at htail
    subst htail
    -- the confirmation loop
    set s0 : ConfirmState :=
      { results := resultList, waiting := waiting,
        waitingCount := waiting.length, timedOut := false } with hs0
    have hrun := confirmRun_spec arg.timeoutSecs (env.time 0) events s0 hwi
    -- characterize the Batch result
    have hbatch : Batch env arg recv events
        = (deferEndTime env (tOut + 1 + 1) (calculateStats
            { startTime := env.time 0, preparedTime := env.time 1,
              allSubmittedTime := env.time tOut,
              payments := (confirmRun arg.timeoutSecs (env.time 0) s0 events).results,
              endTime := env.time (tOut + 1) }), none) := by
      simp only [Batch, hs, hg, hsub]
    rw [hbatch]
    simp only [deferEndTime_payments, calculateStats_payments]
    have hcnt := calculateStats_counts
      { startTime := env.time 0, preparedTime := env.time 1,
        allSubmittedTime := env.time tOut,
        payments := (confirmRun arg.timeoutSecs (env.time 0) s0 events).results,
        endTime := env.time (tOut + 1) }
    have hdef := deferEndTime_counts env (tOut + 1 + 1) (calculateStats
      { startTime := env.time 0, preparedTime := env.time 1,
        allSubmittedTime := env.time tOut,
        payments := (confirmRun arg.timeoutSecs (env.time 0) s0 events).results,
        endTime := env.time (tOut + 1) })
    refine ⟨?_, ?_, ?_, ?_, ?_⟩
    · trivial
    · rw [hrun.2.2.2.1]
      exact huser
    · exact fun r hr => hrun.2.2.2.2 hdesc r hr
    · rw [hdef.1, hdef.2.1, hdef.2.2, hcnt]
      simp [calculateStats_payments]
    · show (confirmRun arg.timeoutSecs (env.time 0) s0 events).results.length
        = recv.length
      rw [hrun.2.2.1]
      show resultList.length = recv.length
      have hlen := congrArg List.length huser
      simp only [List.length_map] at hlen
      rw [hlen]
      exact (sortBySeqno_perm recv).length_eq

/-! ### Spec-side comparison definition and claim-specific helpers -/

/-- Written from the spec's words (for comparison with `calculateStats`):
`avgDurationMs` is the total duration of terminal payments (COMPLETED +
ERROR) divided by their count; PENDING payments are excluded; zero when
there is no terminal payment. -/
def specAvgDurationMs (payments : List BatchPaymentResult) : Int :=
  let terminal := payments.filter (fun p => p.status != PaymentStatus.PENDING)
  if terminal.length = 0 then 0
  else Int.tdiv ((terminal.map (fun p => p.endTime - p.startTime)).sum)
    (terminal.length : Int)

/-- The applicable below-minimum case of a payment: `some min` when the
source's preparation takes the sub-minimum early-error branch (direct to
an unfunded account below "1", or relay below "2.01"). -/
def belowMinErr (env : Env) (p : BatchPaymentArg) : Option String :=
  match env.resolve p.recipient with
  | .error _ => none
  | .ok r =>
    match r.accountID with
    | some acct =>
      match env.isFunded acct with
      | .ok false =>
        if isAmountLessThanMin p.amount minAmountCreateAccountXLM
        then some minAmountCreateAccountXLM else none
      | _ => none
    | none =>
      if isAmountLessThanMin p.amount minAmountRelayXLM
      then some minAmountRelayXLM else none

/-- The PrepareErr entry produced on the below-minimum branches. -/
def belowMinEntry (p : BatchPaymentArg) (m : String) : MiniPrepared :=
  { username := NewNormalizedUsername p.recipient,
    error := some ("you must send at least " ++ m ++
      " XLM to fund the account for " ++ p.recipient) }

/-! ### Concrete runs used as witnesses and counterexamples -/

/-- A small deterministic environment: sender "SENDER"/"seed", recipient
"x" fails to resolve, "relay" resolves to a relay-only recipient, every
other recipient resolves to a funded account "A<name>"; signing yields
"S<acct>"/"H<acct>"; submission is accepted as pending with the signed
payload as ledger id; the clock is the call counter. -/
def exEnv : Env :=
  { sp0 := 10,
    time := fun t => (t : Int),
    deviceID := "dev",
    lookupSender := .ok ("SENDER", "seed"),
    resolve := fun r =>
      if r = "x" then .error "boom"
      else if r = "relay" then .ok { accountID := none, user := some 7, input := r }
      else .ok { accountID := some ("A" ++ r), user := none, input := r },
    isFunded := fun _ => .ok true,
    signPay := fun _seed acct _amt _n => .ok ("S" ++ acct, "H" ++ acct),
    signCreate := fun _seed acct _amt _n => .ok ("C" ++ acct, "HC" ++ acct),
    noteEncrypt := fun _ _ _ => .ok "note",
    relayGetKey := fun _ => .error "no relay key",
    relayCreate := fun _ _ _ _ _ => .error "no relay",
    getListener := .ok (),
    submitPayment := fun d => .ok { stellarID := d.signedTransaction, pending := true },
    submitRelayPayment := fun _ => .error "nope" }

def pa : BatchPaymentArg := { recipient := "alice", amount := "5" }

def pb : BatchPaymentArg := { recipient := "bob", amount := "5" }

def px : BatchPaymentArg := { recipient := "x", amount := "5" }

def prel : BatchPaymentArg := { recipient := "relay", amount := "2.00" }

def argC1 : BatchLocalArg := { batchID := "b", timeoutSecs := 1, payments := [pa, pb] }

/-- Channel content when the schedule prepared bob before alice: bob gets
seqno 10, alice 11. -/
def recvC1 : List (Option MiniPrepared) := (prepareAllOrder exEnv "seed" [pb, pa] 10).1

def recvC2 : List (Option MiniPrepared) := (prepareAllOrder exEnv "seed" [px, pa] 10).1

def recvC3 : List (Option MiniPrepared) := (prepareAllOrder exEnv "seed" [pa, pb] 10).1

/-- One COMPLETED update for alice's transaction, then a tick past the
deadline. -/
def evC3 : List ConfirmEvent :=
  [.update "SAalice" .COMPLETED 50, .tick 5000]

def argC5 : BatchLocalArg := { batchID := "b", timeoutSecs := 1, payments := [px] }

def recvC5 : List (Option MiniPrepared) := (prepareAllOrder exEnv "seed" [px] 10).1

def failEnv : Env := { exEnv with lookupSender := .error "sender boom" }

/-- The result list and waiting set after submitting `recvC3`. -/
def exSubmitResults : List BatchPaymentResult :=
  [{ username := "alice", startTime := 2, submittedTime := 3, endTime := 0,
     txID := "SAalice", status := .PENDING, statusDescription := "pending",
     error := none },
   { username := "bob", startTime := 4, submittedTime := 5, endTime := 0,
     txID := "SAbob", status := .PENDING, statusDescription := "pending",
     error := none }]

def exWaiting : List (String × Nat) := [("SAbob", 1), ("SAalice", 0)]

/-- The confirmation state right after the submit loop of `recvC3`. -/
def exConfirmState : ConfirmState :=
  { results := exSubmitResults, waiting := exWaiting,
    waitingCount := 2, timedOut := false }

/-- The result the submit loop produces for a resolver-failure payment. -/
def exErrResult : BatchPaymentResult :=
  { username := "x", startTime := 2, submittedTime := 0, endTime := 3,
    txID := "", status := PaymentStatus.ERROR, statusDescription := "error",
    error := some "error looking up recipient" }

/-! ### Claims -/

/-- C9: if the sender lookup fails, `Batch` returns that error and the
returned BatchResult has no payments populated; nothing that follows
(preparation, submission, confirmation) affects the result, which is the
same for every `recv` and `events`. -/
theorem C9_sender_lookup_failure (env : Env) (arg : BatchLocalArg)
    (recv : List (Option MiniPrepared)) (events : List ConfirmEvent)
    (e : String) (h : env.lookupSender = Except.error e) :
    (Batch env arg recv events).2 = some e ∧
    (Batch env arg recv events).1.payments = [] := by
  simp only [Batch, h]
  constructor <;> simp [deferEndTime_payments]

theorem C9_sender_lookup_failure_witness :
    (Batch failEnv argC1 recvC1 evC3).2 = some "sender boom" ∧
    (Batch failEnv argC1 recvC1 evC3).1.payments = [] :=
  C9_sender_lookup_failure failEnv argC1 recvC1 evC3 "sender boom" rfl

/-- C10: for every valid run, `PrepareBatchPayments` returns a nil error
and a list with no nil entry, so the "batch prepare failed" branch of the
submit loop in `Batch` is unreachable: the loop always produces a
result. -/
theorem C10_no_nil_prepared (env : Env) (seed : String)
    (payments : List BatchPaymentArg) (recv : List (Option MiniPrepared))
    (hv : ValidRecv env seed payments recv) :
    (PrepareBatchPayments recv).2 = none ∧
    (∀ m ∈ (PrepareBatchPayments recv).1, m.isSome) ∧
    (∀ (acct : String) (acc : List BatchPaymentResult)
       (w : List (String × Nat)) (i t : Nat),
       (submitLoopAux env acct (PrepareBatchPayments recv).1 acc w i t).isSome) := by
  obtain ⟨order, hop, hrp⟩ := hv
  have hsome : ∀ m ∈ recv, m.isSome := fun m hm =>
    prepareAllOrder_isSome env seed order env.sp0 m (hrp.mem_iff.1 hm)
  have hsome2 : ∀ m ∈ (PrepareBatchPayments recv).1, m.isSome := fun m hm =>
    hsome m ((sortBySeqno_perm recv).mem_iff.1 hm)
  exact ⟨rfl, hsome2, fun acct acc w i t =>
    submitLoopAux_isSome env acct _ hsome2 acc w i t⟩

theorem C10_no_nil_prepared_witness :
    ValidRecv exEnv "seed" [pa, pb] recvC3 ∧
    (∀ m ∈ (PrepareBatchPayments recvC3).1, m.isSome) := by
  have hv : ValidRecv exEnv "seed" [pa, pb] recvC3 :=
    ⟨[pa, pb], by decide, by decide⟩
  exact ⟨hv, (C10_no_nil_prepared exEnv "seed" [pa, pb] recvC3 hv).2.1⟩

/-- C8: a recipient that fails to resolve yields a prepared entry whose
stored message is exactly "error looking up recipient" — the resolver's
own error does not appear — with no sequence number consumed (`sp` is
returned unchanged), and the submit loop turns that entry into a result
with status ERROR carrying exactly that message; the waiting set is
untouched. -/
theorem C8_resolver_failure (env : Env) (seed : String) (p : BatchPaymentArg)
    (sp : Nat) (e : String) (h : env.resolve p.recipient = Except.error e) :
    prepareBatchPayment env seed p sp
      = (some { username := NewNormalizedUsername p.recipient,
                error := some "error looking up recipient" }, sp) ∧
    (∀ (acct : String) (acc : List BatchPaymentResult)
       (w : List (String × Nat)) (i t : Nat),
      submitLoopAux env acct [(prepareBatchPayment env seed p sp).1] acc w i t
        = some ((({ username := NewNormalizedUsername p.recipient,
                    startTime := env.time t,
                    endTime := env.time (t + 1),
                    status := PaymentStatus.ERROR,
                    statusDescription := PaymentStatusRevMap PaymentStatus.ERROR,
                    error := some "error looking up recipient" }
                  : BatchPaymentResult) :: acc).reverse,
            w, t + 2)) := by
  have h1 : prepareBatchPayment env seed p sp
      = (some { username := NewNormalizedUsername p.recipient,
                error := some "error looking up recipient" }, sp) := by
    simp [prepareBatchPayment, h]
  refine ⟨h1, ?_⟩
  intro acct acc w i t
  rw [h1]
  simp [submitLoopAux, makeResultError]

theorem C8_resolver_failure_witness :
    exEnv.resolve px.recipient = Except.error "boom" ∧
    prepareBatchPayment exEnv "seed" px 10
      = (some { username := NewNormalizedUsername px.recipient,
                error := some "error looking up recipient" }, 10) :=
  ⟨rfl, (C8_resolver_failure exEnv "seed" px 10 "boom" rfl).1⟩

/-- C7: a payment below the applicable minimum — direct to an unfunded
account with amount < "1", or relay with amount < "2.01" — prepares to a
PrepareErr with the stated "you must send at least … XLM" message and
returns the sequence counter unchanged (the SequenceProvider is never
consulted); in a batch the other payments produce exactly the entries and
seqno threading they would produce without it. -/
theorem C7_below_min (env : Env) (seed : String) (p : BatchPaymentArg)
    (m : String) (h : belowMinErr env p = some m) :
    (∀ sp : Nat, prepareBatchPayment env seed p sp
      = (some (belowMinEntry p m), sp)) ∧
    (∀ (l1 l2 : List BatchPaymentArg) (sp0 : Nat),
      (prepareAllOrder env seed (l1 ++ p :: l2) sp0).1
        = (prepareAllOrder env seed l1 sp0).1
          ++ some (belowMinEntry p m)
            :: (prepareAllOrder env seed l2
                ((prepareAllOrder env seed l1 sp0).2)).1 ∧
      (prepareAllOrder env seed (l1 ++ p :: l2) sp0).2
        = (prepareAllOrder env seed (l1 ++ l2) sp0).2) := by
  have hone : ∀ sp : Nat, prepareBatchPayment env seed p sp
      = (some (belowMinEntry p m), sp) := by
    intro sp
    unfold belowMinErr at h
    split at h
    · exact absurd h (by simp)
    · rename_i r hres
      split at h
      · rename_i acct hacc
        split at h
        · rename_i hfun
          split at h
          · rename_i hlt
            simp only [Option.some.injEq] at h
            subst h
            simp [prepareBatchPayment, hres, hacc, prepareBatchPaymentDirect,
              hfun, hlt, belowMinEntry]
          · exact absurd h (by simp)
        · exact absurd h (by simp)
      · rename_i hacc
        split at h
        · rename_i hlt
          simp only [Option.some.injEq] at h
          subst h
          simp [prepareBatchPayment, hres, hacc, prepareBatchPaymentRelay,
            hlt, belowMinEntry]
        · exact absurd h (by simp)
  refine ⟨hone, ?_⟩
  intro l1 l2 sp0
  induction l1 generalizing sp0 with
  | nil =>
    refine ⟨?_, ?_⟩
    · simp [prepareAllOrder, hone sp0]
    · simp [prepareAllOrder, hone sp0]
  | cons q l1 ih =>
    refine ⟨?_, ?_⟩
    · simp only [List.cons_append, prepareAllOrder, List.append_eq]
      rw [(ih _).1]
    · simp only [List.cons_append, prepareAllOrder, List.append_eq]
      rw [(ih _).2]

theorem C7_below_min_witness :
    belowMinErr exEnv prel = some minAmountRelayXLM ∧
    prepareBatchPayment exEnv "seed" prel 10
      = (some (belowMinEntry prel minAmountRelayXLM), 10) ∧
    (prepareAllOrder exEnv "seed" ([pa] ++ prel :: [pb]) 10).2
      = (prepareAllOrder exEnv "seed" ([pa] ++ [pb]) 10).2 := by
  have h : belowMinErr exEnv prel = some minAmountRelayXLM := by decide
  exact ⟨h, (C7_below_min exEnv "seed" prel minAmountRelayXLM h).1 10,
    ((C7_below_min exEnv "seed" prel minAmountRelayXLM h).2 [pa] [pb] 10).2⟩

/-- C5: every payment result returned by `Batch` has a status among
COMPLETED, PENDING, ERROR, and its statusDescription is the label derived
from that status — both after the submit loop and after the Confirmer
applied any sequence of listener updates. -/
theorem C5_status_description (env : Env) (arg : BatchLocalArg)
    (recv : List (Option MiniPrepared)) (events : List ConfirmEvent)
    (r : BatchPaymentResult)
    (hr : r ∈ (Batch env arg recv events).1.payments) :
    (r.status = PaymentStatus.COMPLETED ∨ r.status = PaymentStatus.PENDING ∨
      r.status = PaymentStatus.ERROR) ∧
    r.statusDescription = PaymentStatusRevMap r.status := by
  refine ⟨by cases r.status <;> simp, ?_⟩
  cases hs : env.lookupSender with
  | error e =>
    have hpay : (Batch env arg recv events).1.payments = [] := by
      simp [Batch, hs, deferEndTime_payments]
    rw [hpay] at hr
    simp at hr
  | ok sender =>
    cases hg : env.getListener with
    | error e =>
      have hpay : (Batch env arg recv events).1.payments = [] := by
        simp [Batch, hs, hg, deferEndTime_payments]
      rw [hpay] at hr
      simp at hr
    | ok u =>
      cases hsub : submitLoopAux env sender.1 (PrepareBatchPayments recv).1 [] [] 0 2 with
      | none =>
        have hpay : (Batch env arg recv events).1.payments = [] := by
          simp [Batch, hs, hg, hsub, deferEndTime_payments]
        rw [hpay] at hr
        simp at hr
      | some outcome =>
        obtain ⟨resultList, waiting, tOut⟩ := outcome
        have hpay : (Batch env arg recv events).1.payments
            = (confirmRun arg.timeoutSecs (env.time 0)
                { results := resultList, waiting := waiting,
                  waitingCount := waiting.length, timedOut := false } events).results := by
          simp [Batch, hs, hg, hsub, deferEndTime_payments, calculateStats_payments]
        rcases submitLoopAux_sound env sender.1 (PrepareBatchPayments recv).1
            [] [] 2 resultList waiting tOut hsub
            (by intro kv hkv; simp at hkv) (by simp)
          with ⟨tail, htail, -, hdesc, hwi⟩
        simp only [List.reverse_nil, List.nil_append] at htail
        subst htail
        have hrun := confirmRun_spec arg.timeoutSecs (env.time 0) events
          { results := resultList, waiting := waiting,
            waitingCount := waiting.length, timedOut := false } hwi
        rw [hpay] at hr
        exact hrun.2.2.2.2 hdesc r hr

theorem C5_status_description_witness :
    exErrResult ∈ (Batch exEnv argC5 recvC5 []).1.payments ∧
    exErrResult.statusDescription = PaymentStatusRevMap exErrResult.status :=
  ⟨by decide, (C5_status_description exEnv argC5 recvC5 [] exErrResult (by decide)).2⟩

/-- C4: on every valid run, each payment is counted in exactly one of the
three counters — countSuccess + countPending + countError equals the
number of input payments — and the result list has one entry per input
payment. -/
theorem C4_counts (env : Env) (arg : BatchLocalArg) (acct seed : String)
    (recv : List (Option MiniPrepared)) (events : List ConfirmEvent)
    (hs : env.lookupSender = Except.ok (acct, seed))
    (hg : env.getListener = Except.ok ())
    (hv : ValidRecv env seed arg.payments recv) :
    (Batch env arg recv events).2 = none ∧
    (Batch env arg recv events).1.countSuccess
      + (Batch env arg recv events).1.countPending
      + (Batch env arg recv events).1.countError
      = (arg.payments.length : Int) ∧
    (Batch env arg recv events).1.payments.length = arg.payments.length := by
  obtain ⟨order, hop, hrp⟩ := hv
  have hns : ∀ m ∈ recv, m.isSome := fun m hm =>
    prepareAllOrder_isSome env seed order env.sp0 m (hrp.mem_iff.1 hm)
  have hspec := Batch_ok_spec env arg recv events (acct, seed) hs hg hns
  have hlen : recv.length = arg.payments.length := by
    rw [hrp.length_eq, prepareAllOrder_length, hop.length_eq]
  refine ⟨hspec.1, ?_, ?_⟩
  · rw [hspec.2.2.2.1, hspec.2.2.2.2, hlen]
  · rw [hspec.2.2.2.2, hlen]

theorem C4_counts_witness :
    (Batch exEnv argC1 recvC3 evC3).1.countSuccess
      + (Batch exEnv argC1 recvC3 evC3).1.countPending
      + (Batch exEnv argC1 recvC3 evC3).1.countError
      = (argC1.payments.length : Int) ∧
    (Batch exEnv argC1 recvC3 evC3).1.payments.length = argC1.payments.length := by
  have h := C4_counts exEnv argC1 "SENDER" "seed" recvC3 evC3 rfl rfl
    ⟨[pa, pb], by decide, by decide⟩
  exact ⟨h.2.1, h.2.2⟩

/-- C6: statuses are monotone across the whole run.  The submit loop
establishes the WaitingSet invariant (every waiting entry points at a
PENDING result), and from any state satisfying it, the confirmation loop
only ever applies the transitions PENDING→COMPLETED or PENDING→ERROR to a
result's status: a terminal result is never changed again, and no result
is ever set back to PENDING. -/
theorem C6_status_monotone :
    (∀ (env : Env) (acct : String) (prepared : List (Option MiniPrepared))
       (t : Nat) (results : List BatchPaymentResult)
       (waiting : List (String × Nat)) (tOut : Nat),
       submitLoopAux env acct prepared [] [] 0 t = some (results, waiting, tOut) →
       WaitInvP results waiting) ∧
    (∀ (tmo st : Int) (s : ConfirmState) (events : List ConfirmEvent),
       WaitInvP s.results s.waiting →
       ∀ i : Nat,
         StatusMono ((s.results[i]?).map BatchPaymentResult.status)
           (((confirmRun tmo st s events).results[i]?).map
             BatchPaymentResult.status)) := by
  constructor
  · intro env acct prepared t results waiting tOut h
    rcases submitLoopAux_sound env acct prepared [] [] t results waiting tOut h
        (by intro kv hkv; simp at hkv) (by simp)
      with ⟨tail, -, -, -, hwi⟩
    exact hwi
  · intro tmo st s events hinv i
    exact (confirmRun_spec tmo st events s hinv).2.1 i

theorem C6_status_monotone_witness :
    submitLoopAux exEnv "SENDER" (PrepareBatchPayments recvC3).1 [] [] 0 2
      = some (exSubmitResults, exWaiting, 6) ∧
    WaitInvP exSubmitResults exWaiting ∧
    StatusMono ((exSubmitResults[0]?).map BatchPaymentResult.status)
      (((confirmRun 1 0 exConfirmState evC3).results[0]?).map
        BatchPaymentResult.status) :=
  ⟨by decide,
   C6_status_monotone.1 exEnv "SENDER" (PrepareBatchPayments recvC3).1 2
     exSubmitResults exWaiting 6 (by decide),
   C6_status_monotone.2 1 0 exConfirmState evC3 (by unfold WaitInvP; decide) 0⟩

/-- C1 counterexample: with inputs [alice, bob] and a schedule that
prepared bob first (so bob got seqno 10, alice 11), the returned payments
list is [bob, alice] — seqno order, not input order — refuting the claim
that result.payments[i] corresponds to input.payments[i]. -/
theorem C1_counterexample :
    ValidRecv exEnv "seed" argC1.payments recvC1 ∧
    (Batch exEnv argC1 recvC1 []).2 = none ∧
    argC1.payments.map (fun p => NewNormalizedUsername p.recipient)
      = ["alice", "bob"] ∧
    ((Batch exEnv argC1 recvC1 []).1.payments.map BatchPaymentResult.username)
      = ["bob", "alice"] ∧
    ((Batch exEnv argC1 recvC1 []).1.payments.map BatchPaymentResult.username)
      ≠ argC1.payments.map (fun p => NewNormalizedUsername p.recipient) :=
  ⟨⟨[pb, pa], by decide, by decide⟩, by decide, by decide, by decide, by decide⟩

/-- C1 amended: the returned payments list is in seqno-sorted submission
order — result.payments[i] carries the username of the i-th entry of the
sorted prepared list — and its usernames are a permutation of the
usernames attempted for the inputs; input order itself is not
preserved. -/
theorem C1_amended_submission_order (env : Env) (arg : BatchLocalArg)
    (acct seed : String) (recv : List (Option MiniPrepared))
    (events : List ConfirmEvent)
    (hs : env.lookupSender = Except.ok (acct, seed))
    (hg : env.getListener = Except.ok ())
    (hv : ValidRecv env seed arg.payments recv) :
    (Batch env arg recv events).2 = none ∧
    ((Batch env arg recv events).1.payments.map BatchPaymentResult.username
      = ((PrepareBatchPayments recv).1).map usernameOf) ∧
    ((Batch env arg recv events).1.payments.map BatchPaymentResult.username).Perm
      (arg.payments.map (fun p => NewNormalizedUsername p.recipient)) := by
  obtain ⟨order, hop, hrp⟩ := hv
  have hns : ∀ m ∈ recv, m.isSome := fun m hm =>
    prepareAllOrder_isSome env seed order env.sp0 m (hrp.mem_iff.1 hm)
  have hspec := Batch_ok_spec env arg recv events (acct, seed) hs hg hns
  refine ⟨hspec.1, hspec.2.1, ?_⟩
  rw [hspec.2.1]
  have h1 : (((PrepareBatchPayments recv).1).map usernameOf).Perm
      (recv.map usernameOf) := (sortBySeqno_perm recv).map usernameOf
  have h2 : (recv.map usernameOf).Perm
      (((prepareAllOrder env seed order env.sp0).1).map usernameOf) :=
    hrp.map usernameOf
  have h3 : ((prepareAllOrder env seed order env.sp0).1).map usernameOf
      = order.map (fun p => NewNormalizedUsername p.recipient) :=
    prepareAllOrder_username env seed order env.sp0
  have h4 : (order.map (fun p => NewNormalizedUsername p.recipient)).Perm
      (arg.payments.map (fun p => NewNormalizedUsername p.recipient)) :=
    hop.map (fun p => NewNormalizedUsername p.recipient)
  exact ((h1.trans h2).trans (h3 ▸ h4))

theorem C1_amended_submission_order_witness :
    (Batch exEnv argC1 recvC1 []).2 = none ∧
    ((Batch exEnv argC1 recvC1 []).1.payments.map BatchPaymentResult.username
      = ((PrepareBatchPayments recvC1).1).map usernameOf) :=
  ⟨(C1_amended_submission_order exEnv argC1 "SENDER" "seed" recvC1 [] rfl rfl
      ⟨[pb, pa], by decide, by decide⟩).1,
   (C1_amended_submission_order exEnv argC1 "SENDER" "seed" recvC1 [] rfl rfl
      ⟨[pb, pa], by decide, by decide⟩).2.1⟩

/-- C2 counterexample: with one resolver-failure payment and one Ok
payment at seqno 10, the sorted prepared list places the PrepareErr entry
(seqno 0) first, before the Ok entry — refuting the claim that PrepareErr
entries come after all Ok entries. -/
theorem C2_counterexample :
    ValidRecv exEnv "seed" [px, pa] recvC2 ∧
    ((PrepareBatchPayments recvC2).1).map entryIsErr = [true, false] ∧
    ((PrepareBatchPayments recvC2).1).map seqnoOf = [0, 10] :=
  ⟨⟨[px, pa], by decide, by decide⟩, by decide, by decide⟩

/-- C2 amended: PrepareErr entries carry seqno 0 and the prepared list is
sorted by seqno ascending, so PrepareErr entries appear before — not
after — every entry with a positive seqno; Ok entries appear in ascending
(nondecreasing) seqno order. -/
theorem C2_amended_errors_first (env : Env) (seed : String)
    (payments : List BatchPaymentArg) (recv : List (Option MiniPrepared))
    (hv : ValidRecv env seed payments recv) :
    ((PrepareBatchPayments recv).1).Pairwise
      (fun a b => seqnoOf a ≤ seqnoOf b) ∧
    (∀ m ∈ (PrepareBatchPayments recv).1, entryIsErr m → seqnoOf m = 0) ∧
    (∀ i j : Nat, i < j →
      entryIsErr (((PrepareBatchPayments recv).1).getD j none) →
      seqnoOf (((PrepareBatchPayments recv).1).getD i none) = 0) := by
  obtain ⟨order, hop, hrp⟩ := hv
  have herr : ∀ m ∈ (PrepareBatchPayments recv).1, entryIsErr m → seqnoOf m = 0 := by
    intro m hm
    exact prepareAllOrder_err_seqno env seed order env.sp0 m
      (hrp.mem_iff.1 ((sortBySeqno_perm recv).mem_iff.1 hm))
  refine ⟨sortBySeqno_pairwise recv, herr, ?_⟩
  intro i j hij hje
  by_cases hj : j < ((PrepareBatchPayments recv).1).length
  · have hi : i < ((PrepareBatchPayments recv).1).length := lt_trans hij hj
    rw [List.getD_eq_getElem?_getD, List.getElem?_eq_getElem hj] at hje
    rw [List.getD_eq_getElem?_getD, List.getElem?_eq_getElem hi]
    have hj0 : seqnoOf ((PrepareBatchPayments recv).1)[j] = 0 :=
      herr _ (List.getElem_mem hj) (by simpa using hje)
    have hpw := (List.pairwise_iff_getElem.1 (sortBySeqno_pairwise recv))
      i j hi hj hij
    have hle : seqnoOf ((PrepareBatchPayments recv).1)[i]
        ≤ seqnoOf ((PrepareBatchPayments recv).1)[j] := hpw
    simp only [Option.getD_some]
    omega
  · rw [List.getD_eq_getElem?_getD,
      List.getElem?_eq_none (Nat.le_of_not_lt hj)] at hje
    simp [entryIsErr] at hje

theorem C2_amended_errors_first_witness :
    ((PrepareBatchPayments recvC2).1).Pairwise
      (fun a b => seqnoOf a ≤ seqnoOf b) ∧
    seqnoOf (((PrepareBatchPayments
        ((prepareAllOrder exEnv "seed" [px, px] 10).1)).1).getD 0 none) = 0 :=
  ⟨(C2_amended_errors_first exEnv "seed" [px, pa] recvC2
      ⟨[px, pa], by decide, by decide⟩).1,
   (C2_amended_errors_first exEnv "seed" [px, px]
      ((prepareAllOrder exEnv "seed" [px, px] 10).1)
      ⟨[px, px], by decide, by decide⟩).2.2 0 1 (by decide) (by decide)⟩

/-- C3 fails on the code: in the run below, one payment ends COMPLETED
(startTime 2, endTime 50, duration 48) and one is still PENDING
(startTime 4, endTime never set, so 0); `calculateStats` adds the PENDING
payment's `endTime - startTime = -4` into the total and divides by the
one terminal payment, reporting 44, whereas the average over exactly the
terminal payments is 48. -/
theorem C3_avg_includes_pending :
    (Batch exEnv argC1 recvC3 evC3).2 = none ∧
    ((Batch exEnv argC1 recvC3 evC3).1.payments.map
        (fun r => (r.status, r.startTime, r.endTime)))
      = [(PaymentStatus.COMPLETED, 2, 50), (PaymentStatus.PENDING, 4, 0)] ∧
    (Batch exEnv argC1 recvC3 evC3).1.countPending = 1 ∧
    (Batch exEnv argC1 recvC3 evC3).1.avgDurationMs = 44 ∧
    specAvgDurationMs (Batch exEnv argC1 recvC3 evC3).1.payments = 48 ∧
    (Batch exEnv argC1 recvC3 evC3).1.avgDurationMs
      ≠ specAvgDurationMs (Batch exEnv argC1 recvC3 evC3).1.payments :=
  ⟨by decide, by decide, by decide, by decide, by decide, by decide⟩

end BatchClient
